import Mathlib

/-!
# Verification of the motion3d-transformer orchestration layer

A shallow embedding of the orchestration-relevant code of the
motion3d-transformer repository (FastAPI backend `api.py`, the predictor
`predictor.py`, the model manager `model_loader.py` and the video utilities
`video_processing.py`), together with theorems settling specification claims
about it.  Machine floating point is modelled with exact unnormalized
fractions over `Nat` and explicit round-to-nearest-even; container state
(task store, file system, model cache) is modelled with association lists;
fallible code returns `Except`.
-/

namespace Motion3D

/-! ## IEEE-754 single-precision model

`VideoProcessor.normalize_frames` computes `frame.astype(np.float32) / 255.0`
and `VideoProcessor.denormalize_frames` computes
`(frame * 255).astype(np.uint8)`.  numpy performs these elementwise in single
precision: division and multiplication each produce the float32 nearest the
exact result (ties to even), and `astype(np.uint8)` truncates toward zero.
All values arising here are nonnegative and of normal float32 magnitude
(between `2⁻³⁰` and `2³¹`), so a float32 value is exactly a rational
`n · 2^(e-23)` with `2²³ ≤ n < 2²⁴`; we model the rounding exactly on
unnormalized nonnegative fractions. -/

/-- An unnormalized nonnegative fraction `num / den` (`den` is positive in all
uses); the exact value of a nonnegative float. -/
structure Frac where
  num : Nat
  den : Nat
deriving DecidableEq, Repr

/-- Binary-exponent search for `x = a/b`: starting from a power of two
`pn/pd ≤ x`, double it until `pn/pd ≤ x < 2·pn/pd`.  The fuel `61` covers all
exponents from `2⁻³⁰` up to `2³¹`. -/
def findPow (a b : Nat) : Nat → Nat × Nat → Nat × Nat
  | 0, p => p
  | k + 1, (pn, pd) =>
    if a * pd < 2 * pn * b then (pn, pd)
    else findPow a b k (if 1 < pd then (pn, pd / 2) else (pn * 2, 1))

/-- Round a nonnegative normal-range fraction to the nearest single-precision
float (ties to even), returned as the exact fraction value of that float.
With `2^e ≤ x < 2^(e+1)` the representable floats are the multiples of
`2^(e-23)`; we scale by `2^23 / 2^e`, round to an integer half-to-even, and
scale back. -/
def rnd32 (x : Frac) : Frac :=
  if x.num = 0 then ⟨0, 1⟩
  else
    let p := findPow x.num x.den 61 (1, 1073741824)
    let mn := x.num * (8388608 * p.2)
    let md := x.den * p.1
    let fl := mn / md
    let rm := mn % md
    let n := if md < 2 * rm then fl + 1
             else if 2 * rm < md then fl
             else if fl % 2 = 0 then fl else fl + 1
    ⟨n * p.1, 8388608 * p.2⟩

/-- `astype(np.uint8)` applied to a nonnegative float value: truncation toward
zero, reduced modulo 256. -/
def uint8OfFloat (r : Frac) : Nat := (r.num / r.den) % 256

/-- `VideoProcessor.normalize_frames`: maps each frame (a list of uint8 pixel
values) through `frame.astype(np.float32) / 255.0`. -/
def normalize_frames (frames : List (List Nat)) : List (List Frac) :=
  frames.map (fun frame => frame.map (fun px => rnd32 ⟨px, 255⟩))

/-- `VideoProcessor.denormalize_frames`: maps each frame through
`(frame * 255).astype(np.uint8)` (single-precision multiply, then truncating
cast). -/
def denormalize_frames (frames : List (List Frac)) : List (List Nat) :=
  frames.map (fun frame => frame.map (fun v => uint8OfFloat (rnd32 ⟨v.num * 255, v.den⟩)))

/-! ## Frame extraction

`Motion3DPredictor.preprocess_video` (predictor.py) reads frames in a loop
`while cap.isOpened() and frame_count < max_frames`, transforms each frame
(BGR→RGB, resize, normalize — abstracted here as a per-frame function), and
raises `ValueError("No frames could be extracted from video")` if the
resulting list is empty.  `VideoProcessor.extract_frames`
(video_processing.py) reads frames in a loop that appends each frame first
and then breaks `if max_frames and frame_count >= max_frames` — Python
truthiness, under which both `None` and `0` disable the limit.  A video is
modelled as the list of frames its decoder yields in presentation order. -/

/-- The read loop of `preprocess_video`: stops when the counter reaches
`maxF` or the stream is exhausted, applying `transform` to each frame. -/
def preprocessLoop {α β : Type} (transform : α → β) :
    List α → Nat → Nat → List β
  | [], _, _ => []
  | f :: rest, count, maxF =>
    if count < maxF then transform f :: preprocessLoop transform rest (count + 1) maxF
    else []

/-- `Motion3DPredictor.preprocess_video`: extract up to `maxFrames` frames,
failing if none were extracted. -/
def preprocess_video {α β : Type} (transform : α → β) (video : List α)
    (maxFrames : Nat) : Except String (List β) :=
  let frames := preprocessLoop transform video 0 maxFrames
  if frames.isEmpty then Except.error "No frames could be extracted from video"
  else Except.ok frames

/-- The Python truthiness test `max_frames and frame_count >= max_frames`:
`None` and `0` are falsy. -/
def maxReached (maxFrames : Option Nat) (count : Nat) : Bool :=
  match maxFrames with
  | none => false
  | some 0 => false
  | some (m + 1) => decide (m + 1 ≤ count)

/-- The read loop of `extract_frames`: appends the frame, increments the
counter, then breaks when `maxReached`. -/
def extractLoop {α : Type} : List α → Nat → Option Nat → List α
  | [], _, _ => []
  | f :: rest, count, maxF =>
    f :: (if maxReached maxF (count + 1) then [] else extractLoop rest (count + 1) maxF)

/-- `VideoProcessor.extract_frames`: returns the extracted frames, with no
error path — an unreadable or empty video yields `[]`. -/
def extract_frames {α : Type} (video : List α) (maxFrames : Option Nat) : List α :=
  extractLoop video 0 maxFrames

/-! ### Frame-extraction lemmas -/

/-- The preprocess loop started at `count` takes `maxF - count` frames. -/
theorem preprocessLoop_eq_take {α β : Type} (transform : α → β)
    (video : List α) : ∀ count maxF : Nat,
    preprocessLoop transform video count maxF =
      (video.map transform).take (maxF - count) := by
  induction video with
  | nil => intro count maxF; simp [preprocessLoop]
  | cons f rest ih =>
    intro count maxF
    by_cases h : count < maxF
    · have hsub : maxF - count = (maxF - (count + 1)) + 1 := by omega
      simp [preprocessLoop, h, hsub, List.take, ih]
    · have hsub : maxF - count = 0 := by omega
      simp [preprocessLoop, h, hsub]

/-- The extract loop with a positive limit `m`, started at `count ≤ m - 1`,
takes `m - count` frames. -/
theorem extractLoop_eq_take {α : Type} (video : List α) :
    ∀ count m : Nat, count ≤ m →
    extractLoop video count (some (m + 1)) = video.take (m + 1 - count) := by
  induction video with
  | nil => intro count m _; simp [extractLoop]
  | cons f rest ih =>
    intro count m hcm
    by_cases h : m ≤ count
    · have hm : m = count := le_antisymm h hcm
      subst hm
      have hsub : m + 1 - m = 1 := by omega
      simp [extractLoop, maxReached, hsub]
    · have hlt : count < m := lt_of_le_of_ne (le_of_not_lt (by omega)) (by omega)
      have hnot : ¬ (m + 1 ≤ count + 1) := by omega
      have hsub : m + 1 - count = (m + 1 - (count + 1)) + 1 := by omega
      simp [extractLoop, maxReached, hnot, hsub, List.take, ih (count + 1) m (by omega)]

/-- The extract loop with a falsy limit (`None` or `0`) returns the whole
video. -/
theorem extractLoop_falsy {α : Type} (video : List α) :
    ∀ count : Nat, ∀ maxF : Option Nat, (maxF = none ∨ maxF = some 0) →
    extractLoop video count maxF = video := by
  induction video with
  | nil => intro count maxF _; rfl
  | cons f rest ih =>
    intro count maxF hm
    rcases hm with h | h <;> subst h <;>
      simp [extractLoop, maxReached, ih (count + 1)]


/-! ## Model manager (model_loader.py)

`ModelManager` keeps a cache `loaded_models` (a dict name ↦ model object),
a shared `current_model` pointer and its `current_model_name`.  Model objects
are opaque; object identity is modelled by numbering each freshly constructed
handle with a counter `nextHandle`.  The environment supplies the outcomes of
`os.path.exists` on checkpoint paths and of the underlying loaders
(`load_motion_clone_model` / `load_fomm_model`), which may raise. -/

/-- Environment for `ModelManager`: which checkpoint paths exist, and whether
the underlying loader for a model name raises (`some message`) or succeeds. -/
structure LoadEnv where
  checkpointExists : String → Bool
  loadFailure : String → Option String

/-- State of `ModelManager`. -/
structure ModelManager where
  loaded_models : List (String × Nat)
  current_model : Option Nat
  current_model_name : Option String
  nextHandle : Nat
deriving DecidableEq, Repr

/-- `ModelManager._get_default_model_path`: raises `ValueError` on an unknown
model name. -/
def get_default_model_path (name : String) : Except String String :=
  if name = "motion_clone" then Except.ok "models/motion_clone/checkpoint.pth"
  else if name = "fomm" then Except.ok "models/fomm/vox-cpk.pth.tar"
  else Except.error ("Unknown model: " ++ name)

/-- `ModelManager.load_model` (with the default `model_path=None`): returns
the cached handle if present (no reload), otherwise resolves the default
path, checks existence, runs the loader and caches the fresh handle.  The
third component lists the names for which an actual (expensive) load was
performed. -/
def load_model (env : LoadEnv) (m : ModelManager) (name : String) :
    Except String (Nat × ModelManager × List String) :=
  match m.loaded_models.lookup name with
  | some h => Except.ok (h, m, [])
  | none =>
    match get_default_model_path name with
    | Except.error e => Except.error e
    | Except.ok path =>
      if env.checkpointExists path = false then
        Except.error ("Model not found at " ++ path)
      else
        match env.loadFailure name with
        | some e => Except.error e
        | none =>
          let h := m.nextHandle
          Except.ok (h,
            { m with loaded_models := (name, h) :: m.loaded_models,
                     nextHandle := h + 1 },
            [name])

/-- `ModelManager.set_current_model`: loads if not cached, then points
`current_model` / `current_model_name` at the cached handle. -/
def set_current_model (env : LoadEnv) (m : ModelManager) (name : String) :
    Except String (Nat × ModelManager × List String) :=
  match m.loaded_models.lookup name with
  | some h =>
    Except.ok (h, { m with current_model := some h, current_model_name := some name }, [])
  | none =>
    match load_model env m name with
    | Except.error e => Except.error e
    | Except.ok (_, m1, evs) =>
      match m1.loaded_models.lookup name with
      | some h =>
        Except.ok (h, { m1 with current_model := some h, current_model_name := some name }, evs)
      | none => Except.error "KeyError"

/-- `ModelManager.get_current_model`. -/
def get_current_model (m : ModelManager) : Option Nat := m.current_model

/-- `ModelManager.unload_model`: deletes the cache entry if present, nulling
the current pointer when the evicted name was current; a no-op on a
non-loaded name. -/
def unload_model (m : ModelManager) (name : String) : ModelManager :=
  if (m.loaded_models.lookup name).isSome then
    let m1 := { m with loaded_models := m.loaded_models.filter (fun kv => kv.1 != name) }
    if m1.current_model_name = some name then
      { m1 with current_model := none, current_model_name := none }
    else m1
  else m

/-- The registry invariant: the current pointer is either null (together with
its name) or names a handle present in the cache. -/
def RegistryInv (m : ModelManager) : Prop :=
  (m.current_model = none ∧ m.current_model_name = none) ∨
  (∃ n h, m.current_model_name = some n ∧ m.current_model = some h ∧
    m.loaded_models.lookup n = some h)

/-- An HTTP error response (`HTTPException`). -/
structure HErr where
  code : Nat
  detail : String
deriving DecidableEq, Repr

/-- The mutable fields of the global `Motion3DPredictor` touched by the API
layer: its model manager, its model handle and its model name. -/
structure PredictorSt where
  manager : ModelManager
  model : Option Nat
  model_name : String
deriving DecidableEq, Repr

/-- `POST /model/switch/{model_name}` (api.py `switch_model`): 503 without a
predictor, 400 on a name outside the known list, 500 when
`set_current_model` raises; on success updates the predictor's model fields.
Returns the response together with the post-state. -/
def switch_model (env : LoadEnv) (pred : Option PredictorSt) (name : String) :
    Except HErr String × Option PredictorSt :=
  match pred with
  | none => (Except.error ⟨503, "No models loaded"⟩, none)
  | some pr =>
    if name ≠ "motion_clone" ∧ name ≠ "fomm" then
      (Except.error ⟨400, "Invalid model name"⟩, some pr)
    else
      match set_current_model env pr.manager name with
      | Except.error e => (Except.error ⟨500, e⟩, some pr)
      | Except.ok (_, m1, _) =>
        (Except.ok ("Switched to " ++ name),
         some ⟨m1, get_current_model m1, name⟩)

/-! ## Task orchestration (api.py)

The task store `current_tasks` is a dict task-id ↦ record; records are dicts
whose keys here become optional fields.  The code's status strings are
`"processing"`, `"completed"` and `"error"` (the spec's `Processing`,
`Completed`, `Failed`); there is no queued status string in the code.  The
file system is modelled as the list of paths present. -/

/-- One task record of `current_tasks`. -/
structure TaskRec where
  status : String
  progress : Nat
  output_path : Option String
  errorDetail : Option String
deriving DecidableEq, Repr

/-- The record created by `generate_motion`:
`{"status": "processing", "progress": 0}`. -/
def initialTaskRec : TaskRec := ⟨"processing", 0, none, none⟩

/-- A scheduled background job (`background_tasks.add_task(...)` arguments). -/
structure Job where
  task_id : String
  source_path : String
  driving_path : String
  model_name : String
deriving DecidableEq, Repr

/-- Shared API state: the task table, the set of files on disk, and the
scheduled-but-not-yet-run background jobs. -/
structure ApiState where
  current_tasks : List (String × TaskRec)
  files : List String
  pending : List Job
deriving DecidableEq, Repr

/-- The `/generate` response model (`MotionResponse`). -/
structure MotionResponse where
  task_id : String
  status : String
  output_path : Option String
  error : Option String
deriving DecidableEq, Repr

/-- `s.startswith(pat)` on characters. -/
def strStarts (s pat : List Char) : Bool :=
  match s, pat with
  | _, [] => true
  | [], _ :: _ => false
  | c :: cs, p :: ps => (c == p) && strStarts cs ps

/-- `POST /generate` (api.py `generate_motion`): 503 without a predictor;
400 when a payload's content type is not `image/*` resp. `video/*` (checked
before anything is persisted); otherwise saves the two uploads under
task-scoped paths, creates the task record with
`{"status": "processing", "progress": 0}`, schedules the background worker
and returns at once with the task id — the second component is the post-state,
unchanged on every error path. -/
def generate_motion (predictorLoaded : Bool) (srcContentType drvContentType : List Char)
    (srcExt drvExt : String) (task_id model_name : String) (st : ApiState) :
    Except HErr MotionResponse × ApiState :=
  if predictorLoaded = false then (Except.error ⟨503, "No models loaded"⟩, st)
  else if strStarts srcContentType ['i', 'm', 'a', 'g', 'e', '/'] = false then
    (Except.error ⟨400, "Source file must be an image"⟩, st)
  else if strStarts drvContentType ['v', 'i', 'd', 'e', 'o', '/'] = false then
    (Except.error ⟨400, "Driving file must be a video"⟩, st)
  else
    let source_path := "uploads/" ++ task_id ++ "_source" ++ srcExt
    let driving_path := "uploads/" ++ task_id ++ "_driving" ++ drvExt
    (Except.ok ⟨task_id, "processing", none, none⟩,
     { current_tasks := (task_id, initialTaskRec) :: st.current_tasks,
       files := driving_path :: source_path :: st.files,
       pending := ⟨task_id, source_path, driving_path, model_name⟩ :: st.pending })

/-- The stages of the background worker that can raise, in execution order:
the model switch, the two decodes, inference and encoding (inside
`predictor.generate_motion`), and the `shutil.move` to the final path. -/
inductive Stage where
  | switchModel
  | decodeImage
  | decodeVideo
  | inference
  | encode
  | moveFile
deriving DecidableEq, Repr

/-- One mutation of this task's record performed by the worker. -/
inductive WUpdate where
  | setProcessing
  | setProgress (n : Nat)
  | setCompleted (output_path : String)
  | setError (msg : String)
deriving DecidableEq, Repr

/-- Apply a worker mutation to a record (the completed/error cases replace
the whole dict, as in the source). -/
def applyUpdate (r : TaskRec) : WUpdate → TaskRec
  | WUpdate.setProcessing => { r with status := "processing" }
  | WUpdate.setProgress n => { r with progress := n }
  | WUpdate.setCompleted p => ⟨"completed", 100, some p, none⟩
  | WUpdate.setError m => ⟨"error", 0, none, some m⟩

/-- Result of one worker execution: the ordered store updates it performed on
its task, and the file-lifecycle outcome. `resultWritten` is the temporary
`results/{id}_output.mp4`, `movedToFinal` the final `results/{id}.mp4`,
`inputsDeleted` the removal of both uploads. -/
structure WorkerRun where
  updates : List WUpdate
  resultWritten : Bool
  movedToFinal : Bool
  inputsDeleted : Bool
deriving DecidableEq, Repr

/-- `process_motion_transfer` (api.py): the background worker for one task.
`fails` is the failure oracle: the message of the exception a stage would
raise if executed (`none` for success).  The single `except` clause replaces
the record with `{"status": "error", "error": str(e), "progress": 0}`.  The
switch stage only runs when the predictor's current model name differs from
the requested one. -/
def process_motion_transfer (task_id model_name curName : String)
    (fails : Stage → Option String) : WorkerRun :=
  let u0 : List WUpdate := [WUpdate.setProcessing, WUpdate.setProgress 25]
  match (if curName ≠ model_name then fails Stage.switchModel else none) with
  | some msg => ⟨u0 ++ [WUpdate.setError msg], false, false, false⟩
  | none =>
    let u1 := u0 ++ [WUpdate.setProgress 50]
    match fails Stage.decodeImage with
    | some msg => ⟨u1 ++ [WUpdate.setError msg], false, false, false⟩
    | none =>
      match fails Stage.decodeVideo with
      | some msg => ⟨u1 ++ [WUpdate.setError msg], false, false, false⟩
      | none =>
        match fails Stage.inference with
        | some msg => ⟨u1 ++ [WUpdate.setError msg], false, false, false⟩
        | none =>
          match fails Stage.encode with
          | some msg => ⟨u1 ++ [WUpdate.setError msg], false, false, false⟩
          | none =>
            let u2 := u1 ++ [WUpdate.setProgress 75]
            match fails Stage.moveFile with
            | some msg => ⟨u2 ++ [WUpdate.setError msg], true, false, false⟩
            | none =>
              ⟨u2 ++ [WUpdate.setCompleted ("results/" ++ task_id ++ ".mp4")],
               true, true, true⟩

/-- Whether some stage the worker actually executes raises. -/
def anyStageFails (model_name curName : String) (fails : Stage → Option String) : Bool :=
  (if curName ≠ model_name then (fails Stage.switchModel).isSome else false) ||
  (fails Stage.decodeImage).isSome || (fails Stage.decodeVideo).isSome ||
  (fails Stage.inference).isSome || (fails Stage.encode).isSome ||
  (fails Stage.moveFile).isSome

/-- The code's terminal statuses. -/
def isTerminal (r : TaskRec) : Bool := r.status == "completed" || r.status == "error"

/-- `DELETE /task/{task_id}` (api.py `cleanup_task`): 404 on an unknown id;
otherwise removes the output file (when recorded and present) and deletes the
whole record. -/
def cleanup_task (st : ApiState) (task_id : String) :
    Except HErr String × ApiState :=
  match st.current_tasks.lookup task_id with
  | none => (Except.error ⟨404, "Task not found"⟩, st)
  | some task =>
    let files' := match task.output_path with
      | some p => st.files.filter (fun q => q != p)
      | none => st.files
    (Except.ok "Task cleaned up successfully",
     { st with current_tasks := st.current_tasks.filter (fun kv => kv.1 != task_id),
               files := files' })

/-! ## Benchmark (api.py `benchmark_model`, predictor.py `benchmark_performance`)

Measured wall-clock durations are supplied by an oracle (run index ↦
duration, an exact nonnegative fraction).  `np.mean`, `min`, `max` and the
fps division are modelled as exact arithmetic on those fractions.  The
response model `BenchmarkResult` declares only `avg_time_seconds`, `fps`,
`model_name` and `device`; pydantic ignores the extra keys of the results
dict when constructing it. -/

/-- Exact fraction addition. -/
def Frac.add (a b : Frac) : Frac := ⟨a.num * b.den + b.num * a.den, a.den * b.den⟩

/-- Exact fraction division. -/
def Frac.div (a b : Frac) : Frac := ⟨a.num * b.den, a.den * b.num⟩

/-- `a < b` on fractions with positive denominators. -/
def Frac.lt (a b : Frac) : Bool := a.num * b.den < b.num * a.den

/-- Sum of a list of fractions (`sum(times)` inside `np.mean`). -/
def Frac.sum (l : List Frac) : Frac := l.foldl Frac.add ⟨0, 1⟩

/-- Python `min` over a nonempty list: keep the first smallest element. -/
def Frac.listMin (t : Frac) (ts : List Frac) : Frac :=
  ts.foldl (fun acc x => if Frac.lt x acc then x else acc) t

/-- Python `max` over a nonempty list: keep the first largest element. -/
def Frac.listMax (t : Frac) (ts : List Frac) : Frac :=
  ts.foldl (fun acc x => if Frac.lt acc x then x else acc) t

/-- A JSON-serializable value of the results dict / response model. -/
inductive JVal where
  | num (x : Frac)
  | nat (n : Nat)
  | str (s : String)
deriving DecidableEq, Repr

/-- Counts of the expensive operations a benchmark run performs. -/
structure BenchEffects where
  imageDecodes : Nat
  videoDecodes : Nat
  inferenceRuns : Nat
deriving DecidableEq, Repr

/-- `Motion3DPredictor.benchmark_performance`: preprocesses the image and the
video once (the video through `preprocess_video` with its default
`max_frames=100`), then times `num_runs` synchronous inference calls, and
returns the results dict in the source's key order together with the
operation counts.  With `num_runs = 0` the `min(times)` call raises
`ValueError` on the empty list. -/
def benchmark_performance {α β : Type} (transform : α → β) (video : List α)
    (durations : Nat → Frac) (model_name device : String) (num_runs : Nat) :
    Except String (List (String × JVal) × BenchEffects) :=
  match preprocess_video transform video 100 with
  | Except.error e => Except.error e
  | Except.ok frames =>
    match (List.range num_runs).map durations with
    | [] => Except.error "min() arg is an empty sequence"
    | t :: ts =>
      let avg := Frac.div (Frac.sum (t :: ts)) ⟨num_runs, 1⟩
      let fps := Frac.div ⟨frames.length, 1⟩ avg
      Except.ok ([("avg_time_seconds", JVal.num avg),
                  ("min_time_seconds", JVal.num (Frac.listMin t ts)),
                  ("max_time_seconds", JVal.num (Frac.listMax t ts)),
                  ("fps", JVal.num fps),
                  ("model_name", JVal.str model_name),
                  ("input_frames", JVal.nat frames.length),
                  ("device", JVal.str device)],
                 ⟨1, 1, num_runs⟩)

/-- The fields declared by the `BenchmarkResult` response model, in
declaration order. -/
def benchmarkResultFields : List String :=
  ["avg_time_seconds", "fps", "model_name", "device"]

/-- `BenchmarkResult(**results)`: pydantic keeps the declared fields and
ignores the extra keys of the results dict. -/
def mkBenchmarkResult (results : List (String × JVal)) : List (String × JVal) :=
  benchmarkResultFields.filterMap (fun f => (results.lookup f).map (fun v => (f, v)))

/-- `POST /benchmark` (api.py `benchmark_model`): 503 without a predictor;
switches the model when the requested name differs (an exception there
propagates as an internal error); runs `benchmark_performance` synchronously
and builds the `BenchmarkResult` response.  The task table is returned
untouched: the endpoint never reads or writes `current_tasks`. -/
def benchmark_model {α β : Type} (env : LoadEnv) (pred : Option PredictorSt)
    (transform : α → β) (video : List α) (durations : Nat → Frac)
    (model_name device : String) (num_runs : Nat) (st : ApiState) :
    Except HErr (List (String × JVal) × BenchEffects) × ApiState :=
  match pred with
  | none => (Except.error ⟨503, "No models loaded"⟩, st)
  | some pr =>
    match (if pr.model_name ≠ model_name then
            match set_current_model env pr.manager model_name with
            | Except.error e => Except.error (⟨500, e⟩ : HErr)
            | Except.ok (_, m1, _) =>
              Except.ok (⟨m1, get_current_model m1, model_name⟩ : PredictorSt)
           else Except.ok pr) with
    | Except.error e => (Except.error e, st)
    | Except.ok pr2 =>
      match benchmark_performance transform video durations pr2.model_name device num_runs with
      | Except.error e => (Except.error ⟨500, e⟩, st)
      | Except.ok (results, eff) => (Except.ok (mkBenchmarkResult results, eff), st)

/-! ## Theorems -/

set_option maxRecDepth 100000 in
/-- Per-pixel round trip: normalizing then denormalizing a uint8 value
recovers it exactly (checked over all 256 values with exact
round-to-nearest-even arithmetic). -/
theorem pixel_roundtrip : ∀ px : Fin 256,
    uint8OfFloat (rnd32 ⟨(rnd32 ⟨px.val, 255⟩).num * 255, (rnd32 ⟨px.val, 255⟩).den⟩) = px.val := by
  decide

/-- One frame of uint8 pixels survives the normalize/denormalize round
trip. -/
theorem map_pixel_roundtrip (f : List Nat) (h : ∀ px ∈ f, px < 256) :
    f.map (fun px =>
      uint8OfFloat (rnd32 ⟨(rnd32 ⟨px, 255⟩).num * 255, (rnd32 ⟨px, 255⟩).den⟩)) = f := by
  induction f with
  | nil => rfl
  | cons a as ih =>
    have ha : a < 256 := h a (List.mem_cons_self a as)
    have hpx := pixel_roundtrip ⟨a, ha⟩
    simp only [List.map_cons]
    exact congrArg₂ List.cons hpx (ih fun px hp => h px (List.mem_cons_of_mem a hp))

/-- Frame lists of uint8 pixels survive the round trip. -/
theorem frames_roundtrip : ∀ frames : List (List Nat),
    (∀ f ∈ frames, ∀ px ∈ f, px < 256) →
    denormalize_frames (normalize_frames frames) = frames
  | [], _ => rfl
  | f :: fs, h => by
    have h1 : List.map (fun v => uint8OfFloat (rnd32 ⟨v.num * 255, v.den⟩))
        (List.map (fun px => rnd32 ⟨px, 255⟩) f) = f := by
      rw [List.map_map]
      exact map_pixel_roundtrip f fun px hp => h f (List.mem_cons_self f fs) px hp
    have h2 := frames_roundtrip fs fun g hg px hp => h g (List.mem_cons_of_mem f hg) px hp
    simp only [normalize_frames, denormalize_frames, List.map_cons] at h2 ⊢
    rw [h1, h2]

/-- C10: for every list of uint8 frames, `normalize_frames` (divide by 255
into [0,1] float32) followed by `denormalize_frames` (multiply by 255 and
cast to uint8) yields frames pixel-for-pixel equal to the originals. -/
theorem normalize_denormalize_roundtrip (frames : List (List Nat))
    (h : ∀ f ∈ frames, ∀ px ∈ f, px < 256) :
    denormalize_frames (normalize_frames frames) = frames :=
  frames_roundtrip frames h

/-- Witness for C10 at a concrete nonempty frame list. -/
theorem normalize_denormalize_roundtrip_witness :
    (∀ f ∈ [[0, 1, 127], [254, 255]], ∀ px ∈ f, px < 256) ∧
    denormalize_frames (normalize_frames [[0, 1, 127], [254, 255]]) = [[0, 1, 127], [254, 255]] :=
  ⟨by decide, normalize_denormalize_roundtrip _ (by decide)⟩

/-- C3 counterexample: `VideoProcessor.extract_frames` has no error path —
on a video yielding zero frames it returns the empty list as a valid result
instead of failing with a decode error. -/
theorem extract_frames_empty_video_ok :
    extract_frames ([] : List Nat) (some 5) = ([] : List Nat) := rfl

/-- C3 amended: the pipeline decoder `preprocess_video` does raise
(`ValueError`) whenever zero frames are extracted, for every frame limit;
the utility `VideoProcessor.extract_frames` instead returns the empty list
without error. -/
theorem zero_frames_decode_error {α β : Type} (transform : α → β)
    (maxF : Nat) (maxF' : Option Nat) :
    preprocess_video transform ([] : List α) maxF =
      Except.error "No frames could be extracted from video" ∧
    extract_frames ([] : List α) maxF' = [] :=
  ⟨rfl, rfl⟩

/-- C4 counterexample: with frame limit `N = 0` on a 1-frame video,
`extract_frames` returns the whole video (`max_frames` is falsy in Python),
not `min(totalFrames, 0) = 0` frames. -/
theorem extract_frames_zero_limit :
    (extract_frames [(7 : Nat)] (some 0)).length ≠ Nat.min ([(7 : Nat)].length) 0 := by
  decide

/-- C4 amended: for every frame limit `N ≥ 1` both decoders truncate —
`extract_frames` returns exactly the first `min(totalFrames, N)` frames in
original order, and on a nonempty video `preprocess_video` succeeds with the
first `min(totalFrames, N)` transformed frames.  (With `N = 0`,
`extract_frames` ignores the limit and `preprocess_video` errors.) -/
theorem decode_truncation {α β : Type} (transform : α → β) (video : List α)
    (N : Nat) (hN : 1 ≤ N) :
    extract_frames video (some N) = video.take N ∧
    (video ≠ [] →
      preprocess_video transform video N = Except.ok ((video.map transform).take N)) ∧
    (video.take N).length = Nat.min video.length N := by
  obtain ⟨m, rfl⟩ : ∃ m, N = m + 1 := ⟨N - 1, by omega⟩
  refine ⟨?_, ?_, ?_⟩
  · simpa using extractLoop_eq_take video 0 m (Nat.zero_le m)
  · intro hv
    match video, hv with
    | a :: as, _ =>
      have hloop := preprocessLoop_eq_take transform (a :: as) 0 (m + 1)
      simp only [Nat.sub_zero] at hloop
      simp [preprocess_video, hloop, List.take]
  · simp [List.length_take, Nat.min_comm]

/-- Witness for C4 at a 3-frame video with limit 2. -/
theorem decode_truncation_witness :
    1 ≤ 2 ∧ ([1, 2, 3] : List Nat) ≠ [] ∧
    extract_frames [1, 2, 3] (some 2) = [1, 2] ∧
    preprocess_video (fun n : Nat => n) [1, 2, 3] 2 = Except.ok [1, 2] := by
  have h := decode_truncation (fun n : Nat => n) [1, 2, 3] 2 (by decide)
  exact ⟨by decide, by decide, h.1, h.2.1 (by decide)⟩

/-- Association-list helper: filtering out key `k` removes it from lookups. -/
theorem lookup_filter_self {β : Type} (l : List (String × β)) (k : String) :
    (l.filter (fun kv => kv.1 != k)).lookup k = none := by
  induction l with
  | nil => rfl
  | cons kv rest ih =>
    by_cases h : kv.1 = k
    · simp [List.filter_cons, h, ih]
    · have hb : (k == kv.1) = false := by
        simp only [beq_eq_false_iff_ne, ne_eq]
        exact fun hh => h hh.symm
      simp [List.filter_cons, bne_iff_ne, h, List.lookup, hb, ih]

/-- Association-list helper: filtering out key `k` leaves other lookups
unchanged. -/
theorem lookup_filter_ne {β : Type} (l : List (String × β)) (n k : String)
    (hnk : n ≠ k) :
    (l.filter (fun kv => kv.1 != k)).lookup n = l.lookup n := by
  induction l with
  | nil => rfl
  | cons kv rest ih =>
    by_cases h : kv.1 = k
    · have hne : (n == kv.1) = false := by
        simp only [beq_eq_false_iff_ne, ne_eq]
        exact fun hh => hnk (hh.trans h)
      have hbk : (n == k) = false := by
        simp only [beq_eq_false_iff_ne, ne_eq]; exact hnk
      simp [List.filter_cons, h, List.lookup, hne, hbk, ih]
    · by_cases hk : n = kv.1
      · simp [List.filter_cons, bne_iff_ne, h, List.lookup, hk]
      · have hne : (n == kv.1) = false := by
          simp only [beq_eq_false_iff_ne, ne_eq]; exact hk
        simp [List.filter_cons, bne_iff_ne, h, List.lookup, hne, ih]

/-- C6: `load_model` is idempotent — after a successful load, loading the
same name again returns the identical handle and state and performs no
reload of the model resource (the empty load-event list). -/
theorem load_model_idempotent (env : LoadEnv) (m m' : ModelManager)
    (name : String) (h : Nat) (evs : List String)
    (hload : load_model env m name = Except.ok (h, m', evs)) :
    load_model env m' name = Except.ok (h, m', []) := by
  unfold load_model at hload
  split at hload
  · rename_i h0 heq
    simp only [Except.ok.injEq, Prod.mk.injEq] at hload
    obtain ⟨rfl, rfl, rfl⟩ := hload
    unfold load_model
    simp [heq]
  · rename_i heq
    split at hload
    · simp at hload
    · rename_i path heq2
      split at hload
      · simp at hload
      · split at hload
        · simp at hload
        · simp only [Except.ok.injEq, Prod.mk.injEq] at hload
          obtain ⟨rfl, rfl, rfl⟩ := hload
          unfold load_model
          simp [List.lookup]

/-- Witness for C6: a fresh load of `"fomm"` followed by a second load. -/
theorem load_model_idempotent_witness :
    load_model ⟨fun _ => true, fun _ => none⟩ ⟨[], none, none, 0⟩ "fomm" =
      Except.ok (0, ⟨[("fomm", 0)], none, none, 1⟩, ["fomm"]) ∧
    load_model ⟨fun _ => true, fun _ => none⟩ ⟨[("fomm", 0)], none, none, 1⟩ "fomm" =
      Except.ok (0, ⟨[("fomm", 0)], none, none, 1⟩, []) :=
  ⟨rfl, load_model_idempotent ⟨fun _ => true, fun _ => none⟩ ⟨[], none, none, 0⟩
    ⟨[("fomm", 0)], none, none, 1⟩ "fomm" 0 ["fomm"] rfl⟩

/-- C7: the registry invariant (`current` is null or cached) is preserved by
`load_model`, `set_current_model` and `unload_model`; evicting a non-loaded
name is a no-op; and after eviction the current pointer is null exactly when
the evicted name was current or the pointer was already null. -/
theorem registry_invariant (env : LoadEnv) (m : ModelManager) (name : String)
    (hm : RegistryInv m) :
    (∀ h m' evs, load_model env m name = Except.ok (h, m', evs) → RegistryInv m') ∧
    (∀ h m' evs, set_current_model env m name = Except.ok (h, m', evs) → RegistryInv m') ∧
    RegistryInv (unload_model m name) ∧
    (m.loaded_models.lookup name = none → unload_model m name = m) ∧
    ((unload_model m name).current_model = none ↔
      (m.current_model_name = some name ∨ m.current_model = none)) := by
  refine ⟨?_, ?_, ?_, ?_, ?_⟩
  · intro h m' evs hl
    unfold load_model at hl
    split at hl
    · rename_i h0 heq
      simp only [Except.ok.injEq, Prod.mk.injEq] at hl
      obtain ⟨rfl, rfl, rfl⟩ := hl
      exact hm
    · rename_i heq
      split at hl
      · simp at hl
      · rename_i path heq2
        split at hl
        · simp at hl
        · split at hl
          · simp at hl
          · simp only [Except.ok.injEq, Prod.mk.injEq] at hl
            obtain ⟨rfl, rfl, rfl⟩ := hl
            rcases hm with ⟨hc, hn⟩ | ⟨n, hh, e1, e2, e3⟩
            · exact Or.inl ⟨hc, hn⟩
            · refine Or.inr ⟨n, hh, e1, e2, ?_⟩
              have hne : n ≠ name := fun hEq => by
                rw [hEq, heq] at e3; exact Option.noConfusion e3
              have hb : (n == name) = false := by
                simp only [beq_eq_false_iff_ne, ne_eq]; exact hne
              simpa [List.lookup, hb] using e3
  · intro h m' evs hl
    unfold set_current_model at hl
    split at hl
    · rename_i h0 heq
      simp only [Except.ok.injEq, Prod.mk.injEq] at hl
      obtain ⟨rfl, rfl, rfl⟩ := hl
      exact Or.inr ⟨name, _, rfl, rfl, heq⟩
    · rename_i heq
      split at hl
      · simp at hl
      · rename_i h1 m1 evs1 heq2
        split at hl
        · rename_i h2 heq3
          simp only [Except.ok.injEq, Prod.mk.injEq] at hl
          obtain ⟨rfl, rfl, rfl⟩ := hl
          exact Or.inr ⟨name, _, rfl, rfl, heq3⟩
        · simp at hl
  · by_cases hin : (m.loaded_models.lookup name).isSome
    · by_cases hcn : m.current_model_name = some name
      · simp only [unload_model, hin, if_true]
        simp only [hcn, if_pos rfl]
        exact Or.inl ⟨rfl, rfl⟩
      · simp only [unload_model, hin, if_true, if_neg hcn]
        rcases hm with ⟨hc, hn⟩ | ⟨n, hh, e1, e2, e3⟩
        · exact Or.inl ⟨hc, hn⟩
        · have hne : n ≠ name := fun hEq => hcn (hEq ▸ e1)
          exact Or.inr ⟨n, hh, e1, e2, (lookup_filter_ne _ _ _ hne).trans e3⟩
    · simp only [unload_model, Bool.not_eq_true] at hin ⊢
      rw [hin]
      exact hm
  · intro hnone
    simp [unload_model, hnone]
  · by_cases hin : (m.loaded_models.lookup name).isSome
    · by_cases hcn : m.current_model_name = some name
      · simp only [unload_model, hin, if_true]
        simp only [hcn, if_pos rfl]
        simp [hcn]
      · simp only [unload_model, hin, if_true, if_neg hcn]
        constructor
        · intro hc
          exact Or.inr hc
        · rintro (h1 | h2)
          · exact absurd h1 hcn
          · exact h2
    · have hnone : m.loaded_models.lookup name = none := by
        cases hval : m.loaded_models.lookup name with
        | none => rfl
        | some v => rw [hval] at hin; simp at hin
      simp only [unload_model, hnone, Option.isSome_none, if_false]
      constructor
      · intro hc
        exact Or.inr hc
      · rintro (h1 | h2)
        · exfalso
          rcases hm with ⟨hc, hn⟩ | ⟨n, hh, e1, e2, e3⟩
          · rw [hn] at h1; exact Option.noConfusion h1
          · rw [e1] at h1
            have hnn : n = name := by injection h1
            rw [hnn, hnone] at e3
            exact Option.noConfusion e3
        · exact h2

/-- Witness for C7: a registry with `"fomm"` loaded and current. -/
theorem registry_invariant_witness :
    RegistryInv (unload_model ⟨[("fomm", 0)], some 0, some "fomm", 1⟩ "fomm") :=
  (registry_invariant ⟨fun _ => true, fun _ => none⟩
    ⟨[("fomm", 0)], some 0, some "fomm", 1⟩ "fomm"
    (Or.inr ⟨"fomm", 0, rfl, rfl, rfl⟩)).2.2.1

/-- C8: a switch request for a name outside the known list is rejected with
an HTTP 400, and on every error outcome of the switch endpoint the predictor
state (current model, its name, the cache) is returned unchanged. -/
theorem switch_model_rejected_state_unchanged (env : LoadEnv)
    (pr : PredictorSt) (name : String) :
    ((name ≠ "motion_clone" ∧ name ≠ "fomm") →
      switch_model env (some pr) name =
        (Except.error ⟨400, "Invalid model name"⟩, some pr)) ∧
    (∀ e, (switch_model env (some pr) name).1 = Except.error e →
      (switch_model env (some pr) name).2 = some pr) := by
  constructor
  · intro hn
    simp [switch_model, hn]
  · intro e he
    by_cases hn : name ≠ "motion_clone" ∧ name ≠ "fomm"
    · simp [switch_model, hn]
    · cases hsc : set_current_model env pr.manager name with
      | error e1 => simp [switch_model, hn, hsc]
      | ok trip =>
        obtain ⟨h1, m1, evs1⟩ := trip
        simp [switch_model, hn, hsc] at he

/-- Witness for C8: switching to `"unknown"` is rejected with 400 and the
state is unchanged. -/
theorem switch_model_rejected_witness :
    switch_model ⟨fun _ => true, fun _ => none⟩
      (some ⟨⟨[], none, none, 0⟩, none, "motion_clone"⟩) "unknown" =
      (Except.error ⟨400, "Invalid model name"⟩,
       some ⟨⟨[], none, none, 0⟩, none, "motion_clone"⟩) :=
  (switch_model_rejected_state_unchanged _ _ _).1 ⟨by decide, by decide⟩

/-- `getLast?` steps over a cons of at least two elements. -/
theorem getLast?_cons_cons {α : Type} (a b : α) (l : List α) :
    (a :: b :: l).getLast? = (b :: l).getLast? := rfl

/-- `getLast?` of a singleton. -/
theorem getLast?_single {α : Type} (a : α) : ([a] : List α).getLast? = some a := rfl

/-- C1: worker failure semantics.  If any executed stage raises, the final
record is `"error"` with the error detail set, no completed record is ever
written and the input files are left behind; if no stage raises, the update
sequence is exactly processing/25/50/75 followed — as the last action — by
the completed record with the output path, after the output file reached its
final location; the inputs are deleted only in that successful case; and any
completed write is the last action and happens only after the output file is
fully in place. -/
theorem worker_failure_semantics (task_id model_name curName : String)
    (fails : Stage → Option String) (run : WorkerRun) (finalRec : TaskRec)
    (hrun : run = process_motion_transfer task_id model_name curName fails)
    (hrec : finalRec = run.updates.foldl applyUpdate initialTaskRec) :
    (anyStageFails model_name curName fails = true →
      finalRec.status = "error" ∧ finalRec.errorDetail.isSome = true ∧
      (∀ p, WUpdate.setCompleted p ∉ run.updates) ∧
      run.inputsDeleted = false) ∧
    (anyStageFails model_name curName fails = false →
      run.updates = [WUpdate.setProcessing, WUpdate.setProgress 25,
        WUpdate.setProgress 50, WUpdate.setProgress 75,
        WUpdate.setCompleted ("results/" ++ task_id ++ ".mp4")] ∧
      finalRec = ⟨"completed", 100, some ("results/" ++ task_id ++ ".mp4"), none⟩ ∧
      run.movedToFinal = true ∧ run.inputsDeleted = true) ∧
    (run.inputsDeleted = true → run.movedToFinal = true) ∧
    (∀ p, WUpdate.setCompleted p ∈ run.updates →
      run.updates.getLast? = some (WUpdate.setCompleted p) ∧
      run.movedToFinal = true) := by
  subst hrun
  subst hrec
  by_cases hc : curName = model_name <;>
    cases h0 : fails Stage.switchModel <;>
    cases h1 : fails Stage.decodeImage <;>
    cases h2 : fails Stage.decodeVideo <;>
    cases h3 : fails Stage.inference <;>
    cases h4 : fails Stage.encode <;>
    cases h5 : fails Stage.moveFile <;>
    simp_all [process_motion_transfer, anyStageFails, applyUpdate, initialTaskRec,
      getLast?_cons_cons, getLast?_single]

/-- Failure oracle for the C1 witness: decoding the video raises. -/
def wFails : Stage → Option String :=
  fun s => if s = Stage.decodeVideo then some "No frames could be extracted from video" else none

/-- Witness for C1: a worker run whose video decode raises ends in an error
record, never writes a completed record, and leaves the inputs behind. -/
theorem worker_failure_semantics_witness :
    ((process_motion_transfer "t1" "fomm" "fomm" wFails).updates.foldl
        applyUpdate initialTaskRec).status = "error" ∧
    ((process_motion_transfer "t1" "fomm" "fomm" wFails).updates.foldl
        applyUpdate initialTaskRec).errorDetail.isSome = true ∧
    (∀ p, WUpdate.setCompleted p ∉ (process_motion_transfer "t1" "fomm" "fomm" wFails).updates) ∧
    (process_motion_transfer "t1" "fomm" "fomm" wFails).inputsDeleted = false :=
  (worker_failure_semantics "t1" "fomm" "fomm" wFails _ _ rfl rfl).1 (by decide)

/-- Updates that keep a task record non-terminal (progress bookkeeping). -/
def nonTerminalU : WUpdate → Bool
  | WUpdate.setProcessing => true
  | WUpdate.setProgress _ => true
  | _ => false

/-- Progress bookkeeping preserves non-terminality. -/
theorem applyUpdate_nonterminal (r : TaskRec) (u : WUpdate)
    (hr : isTerminal r = false) (hu : nonTerminalU u = true) :
    isTerminal (applyUpdate r u) = false := by
  cases u <;> simp_all [applyUpdate, isTerminal, nonTerminalU]

/-- Every worker run's update list is progress bookkeeping followed by one
final terminal write. -/
theorem worker_updates_shape (task_id model_name curName : String)
    (fails : Stage → Option String) :
    ∃ pre last, (process_motion_transfer task_id model_name curName fails).updates = pre ++ [last] ∧
      ∀ u ∈ pre, nonTerminalU u = true := by
  by_cases hc : curName = model_name <;>
    cases h0 : fails Stage.switchModel <;>
    cases h1 : fails Stage.decodeImage <;>
    cases h2 : fails Stage.decodeVideo <;>
    cases h3 : fails Stage.inference <;>
    cases h4 : fails Stage.encode <;>
    cases h5 : fails Stage.moveFile <;>
    simp [process_motion_transfer, hc, h0, h1, h2, h3, h4, h5] <;>
    first
    | exact ⟨[WUpdate.setProcessing, WUpdate.setProgress 25], ⟨_, rfl⟩, by decide⟩
    | exact ⟨[WUpdate.setProcessing, WUpdate.setProgress 25, WUpdate.setProgress 50],
        ⟨_, rfl⟩, by decide⟩
    | exact ⟨[WUpdate.setProcessing, WUpdate.setProgress 25, WUpdate.setProgress 50,
        WUpdate.setProgress 75], ⟨_, rfl⟩, by decide⟩

/-- In a scan of progress bookkeeping followed by one final write, a
terminal record can occur only at the last position. -/
theorem scanl_terminal_only_last : ∀ (pre : List WUpdate) (last : WUpdate) (r0 : TaskRec),
    isTerminal r0 = false →
    (∀ u ∈ pre, nonTerminalU u = true) →
    ∀ i : Fin (List.scanl applyUpdate r0 (pre ++ [last])).length,
      isTerminal ((List.scanl applyUpdate r0 (pre ++ [last])).get i) = true →
      (i : Nat) + 1 = (List.scanl applyUpdate r0 (pre ++ [last])).length
  | [], last, r0, h0, _, i, hti => by
    rcases i with ⟨iv, hlt⟩
    simp only [List.nil_append, List.scanl, List.length_cons, List.length_nil] at hlt ⊢
    interval_cases iv
    · exfalso
      simp only [List.nil_append, List.scanl] at hti
      simp [List.get] at hti
      rw [hti] at h0
      exact Bool.noConfusion h0
    · rfl
  | u :: pre, last, r0, h0, hpre, i, hti => by
    rcases i with ⟨iv, hlt⟩
    cases iv with
    | zero =>
      exfalso
      simp only [List.cons_append, List.scanl] at hti
      simp [List.get] at hti
      rw [hti] at h0
      exact Bool.noConfusion h0
    | succ k =>
      have h0' : isTerminal (applyUpdate r0 u) = false :=
        applyUpdate_nonterminal r0 u h0 (hpre u (List.mem_cons_self u pre))
      have hlt' : k < (List.scanl applyUpdate (applyUpdate r0 u) (pre ++ [last])).length := by
        simp only [List.cons_append, List.scanl, List.length_cons, List.append_eq] at hlt
        omega
      have hti' : isTerminal ((List.scanl applyUpdate (applyUpdate r0 u)
          (pre ++ [last])).get ⟨k, hlt'⟩) = true := by
        simp only [List.cons_append, List.scanl] at hti
        simpa [List.get] using hti
      have hrec := scanl_terminal_only_last pre last (applyUpdate r0 u) h0'
        (fun v hv => hpre v (List.mem_cons_of_mem u hv)) ⟨k, hlt'⟩ hti'
      simp only [List.cons_append, List.scanl, List.length_cons, List.append_eq]
      simp only [List.append_eq] at hrec
      omega

/-- C5: terminal-state monotonicity.  Along the per-task sequence of store
states (creation record, then each worker update in order), a terminal
status occurs only at the last position — hence once `"completed"` or
`"error"` is visible, no later store state of that task differs; and the
only operation that removes a task from a terminal state is `cleanup_task`,
which deletes the whole record (404 on an unknown id). -/
theorem terminal_state_monotone (task_id model_name curName : String)
    (fails : Stage → Option String) (recs : List TaskRec)
    (hrecs : recs = List.scanl applyUpdate initialTaskRec
      (process_motion_transfer task_id model_name curName fails).updates) :
    (∀ i : Fin recs.length, isTerminal (recs.get i) = true → (i : Nat) + 1 = recs.length) ∧
    (∀ i j : Fin recs.length, (i : Nat) ≤ (j : Nat) → isTerminal (recs.get i) = true →
      recs.get j = recs.get i) ∧
    (∀ st : ApiState, st.current_tasks.lookup task_id = none →
      cleanup_task st task_id = (Except.error ⟨404, "Task not found"⟩, st)) ∧
    (∀ st : ApiState, ∀ r, st.current_tasks.lookup task_id = some r →
      (cleanup_task st task_id).1 = Except.ok "Task cleaned up successfully" ∧
      (cleanup_task st task_id).2.current_tasks.lookup task_id = none) := by
  subst hrecs
  obtain ⟨pre, last, hshape, hpre⟩ := worker_updates_shape task_id model_name curName fails
  have key := scanl_terminal_only_last pre last initialTaskRec (by decide) hpre
  rw [← hshape] at key
  refine ⟨key, ?_, ?_, ?_⟩
  · intro i j hij ht
    have hi := key i ht
    have hj := j.isLt
    have hval : (j : Nat) = (i : Nat) := by omega
    rw [show j = i from Fin.ext hval]
  · intro st h
    simp [cleanup_task, h]
  · intro st r h
    refine ⟨?_, ?_⟩
    · simp [cleanup_task, h]
    · simp [cleanup_task, h, lookup_filter_self]

/-- Witness for C5: the success run — the only terminal record is the last
one, and cleanup deletes a completed record. -/
theorem terminal_state_monotone_witness :
    (∀ st : ApiState, ∀ r, st.current_tasks.lookup "t2" = some r →
      (cleanup_task st "t2").1 = Except.ok "Task cleaned up successfully" ∧
      (cleanup_task st "t2").2.current_tasks.lookup "t2" = none) ∧
    (cleanup_task ⟨[("t2", ⟨"completed", 100, some "results/t2.mp4", none⟩)],
        ["results/t2.mp4"], []⟩ "t2").2.current_tasks.lookup "t2" = none :=
  have h := terminal_state_monotone "t2" "fomm" "fomm" (fun _ => none) _ rfl
  ⟨h.2.2.2, (h.2.2.2 ⟨[("t2", ⟨"completed", 100, some "results/t2.mp4", none⟩)],
      ["results/t2.mp4"], []⟩ ⟨"completed", 100, some "results/t2.mp4", none⟩ rfl).2⟩

/-- C2 counterexample: a valid submission creates the task record with
initial status `"processing"`, not a queued status — the code has no
distinct queued state. -/
theorem generate_motion_initial_status_not_queued :
    ((generate_motion true ['i', 'm', 'a', 'g', 'e', '/', 'p', 'n', 'g']
        ['v', 'i', 'd', 'e', 'o', '/', 'm', 'p', '4'] ".png" ".mp4" "t1" "motion_clone"
        ⟨[], [], []⟩).2.current_tasks.lookup "t1") = some ⟨"processing", 0, none, none⟩ ∧
    ("processing" : String) ≠ "queued" :=
  ⟨rfl, by decide⟩

/-- C2 amended: for every submission whose two payloads pass the
content-type checks, `generate_motion` persists the uploads to task-scoped
paths, creates a task record whose initial status is already `"processing"`
(with progress 0; there is no distinct queued state), schedules the
background job, and returns the task id immediately; when validation fails,
an HTTP 400 is returned and the state — in particular the task table — is
unchanged; without a loaded predictor the request fails with 503. -/
theorem generate_motion_submit (srcCT drvCT : List Char)
    (srcExt drvExt tid mn : String) (st : ApiState) :
    (strStarts srcCT ['i', 'm', 'a', 'g', 'e', '/'] = true →
     strStarts drvCT ['v', 'i', 'd', 'e', 'o', '/'] = true →
      generate_motion true srcCT drvCT srcExt drvExt tid mn st =
        (Except.ok ⟨tid, "processing", none, none⟩,
         { current_tasks := (tid, initialTaskRec) :: st.current_tasks,
           files := ("uploads/" ++ tid ++ "_driving" ++ drvExt) ::
             ("uploads/" ++ tid ++ "_source" ++ srcExt) :: st.files,
           pending := ⟨tid, "uploads/" ++ tid ++ "_source" ++ srcExt,
             "uploads/" ++ tid ++ "_driving" ++ drvExt, mn⟩ :: st.pending }) ∧
      initialTaskRec.status = "processing") ∧
    (strStarts srcCT ['i', 'm', 'a', 'g', 'e', '/'] = false →
      generate_motion true srcCT drvCT srcExt drvExt tid mn st =
        (Except.error ⟨400, "Source file must be an image"⟩, st)) ∧
    (strStarts srcCT ['i', 'm', 'a', 'g', 'e', '/'] = true →
     strStarts drvCT ['v', 'i', 'd', 'e', 'o', '/'] = false →
      generate_motion true srcCT drvCT srcExt drvExt tid mn st =
        (Except.error ⟨400, "Driving file must be a video"⟩, st)) ∧
    generate_motion false srcCT drvCT srcExt drvExt tid mn st =
      (Except.error ⟨503, "No models loaded"⟩, st) := by
  refine ⟨?_, ?_, ?_, ?_⟩
  · intro h1 h2
    exact ⟨by simp [generate_motion, h1, h2], rfl⟩
  · intro h1
    simp [generate_motion, h1]
  · intro h1 h2
    simp [generate_motion, h1, h2]
  · simp [generate_motion]

/-- Witness for C2: a concrete valid submission. -/
theorem generate_motion_submit_witness :
    strStarts ['i', 'm', 'a', 'g', 'e', '/', 'p', 'n', 'g'] ['i', 'm', 'a', 'g', 'e', '/'] = true ∧
    strStarts ['v', 'i', 'd', 'e', 'o', '/', 'm', 'p', '4'] ['v', 'i', 'd', 'e', 'o', '/'] = true ∧
    generate_motion true ['i', 'm', 'a', 'g', 'e', '/', 'p', 'n', 'g']
        ['v', 'i', 'd', 'e', 'o', '/', 'm', 'p', '4'] ".png" ".mp4" "t9" "fomm" ⟨[], [], []⟩ =
      (Except.ok ⟨"t9", "processing", none, none⟩,
       ⟨[("t9", initialTaskRec)], ["uploads/t9_driving.mp4", "uploads/t9_source.png"],
        [⟨"t9", "uploads/t9_source.png", "uploads/t9_driving.mp4", "fomm"⟩]⟩) :=
  ⟨by decide, by decide,
   (generate_motion_submit ['i', 'm', 'a', 'g', 'e', '/', 'p', 'n', 'g']
      ['v', 'i', 'd', 'e', 'o', '/', 'm', 'p', '4'] ".png" ".mp4" "t9" "fomm"
      ⟨[], [], []⟩).1 (by decide) (by decide) |>.1⟩

/-- C9 counterexample: at a concrete benchmark request, the endpoint's
response carries no `min_time_seconds` or `max_time_seconds` field — the
`BenchmarkResult` response model declares only the average, fps, model name
and device, and pydantic drops the extra keys of the results dict. -/
theorem benchmark_response_missing_minmax :
    ((benchmark_model ⟨fun _ => true, fun _ => none⟩
        (some ⟨⟨[("fomm", 0)], some 0, some "fomm", 1⟩, some 0, "fomm"⟩)
        (fun n : Nat => n) [10, 20] (fun i => ⟨i + 1, 10⟩) "fomm" "cpu" 2
        ⟨[], [], []⟩).1.toOption.map
      (fun p => (p.1.lookup "min_time_seconds", p.1.lookup "max_time_seconds",
        (p.1.lookup "avg_time_seconds").isSome, (p.1.lookup "fps").isSome))) =
      some (none, none, true, true) := by
  decide

/-- C9 amended: every successful benchmark request decodes the two inputs
once, runs inference exactly `num_runs` times synchronously (which requires
`num_runs ≥ 1`), leaves the task table untouched (no task record is
created), and returns statistics containing the average time and fps (plus
model name and device) — the minimum and maximum times are computed
internally but dropped from the response. -/
theorem benchmark_model_spec {α β : Type} (env : LoadEnv) (pred : Option PredictorSt)
    (transform : α → β) (video : List α) (durations : Nat → Frac)
    (model_name device : String) (num_runs : Nat) (st : ApiState)
    (resp : List (String × JVal)) (eff : BenchEffects) (st2 : ApiState)
    (hok : benchmark_model env pred transform video durations model_name device num_runs st
      = (Except.ok (resp, eff), st2)) :
    st2 = st ∧
    eff = ⟨1, 1, num_runs⟩ ∧
    resp.map Prod.fst = ["avg_time_seconds", "fps", "model_name", "device"] ∧
    resp.lookup "min_time_seconds" = none ∧
    resp.lookup "max_time_seconds" = none ∧
    resp.lookup "avg_time_seconds" = some (JVal.num (Frac.div
      (Frac.sum ((List.range num_runs).map durations)) ⟨num_runs, 1⟩)) ∧
    1 ≤ num_runs := by
  unfold benchmark_model at hok
  split at hok
  · simp at hok
  · rename_i pr hprd
    split at hok
    · simp at hok
    · rename_i pr2 hsw
      cases hbp : benchmark_performance transform video durations pr2.model_name device num_runs with
      | error e => rw [hbp] at hok; simp at hok
      | ok pres =>
        obtain ⟨results, eff0⟩ := pres
        rw [hbp] at hok
        simp only [Prod.mk.injEq, Except.ok.injEq] at hok
        obtain ⟨⟨hresp, heff⟩, hst⟩ := hok
        unfold benchmark_performance at hbp
        split at hbp
        · simp at hbp
        · rename_i frames hpre
          split at hbp
          · simp at hbp
          · rename_i t ts hts
            simp only [Except.ok.injEq, Prod.mk.injEq] at hbp
            obtain ⟨hres2, heff2⟩ := hbp
            have hnum : num_runs ≠ 0 := by
              intro h0
              rw [h0] at hts
              simp at hts
            subst hresp
            subst hres2
            refine ⟨hst.symm, (heff2.trans heff).symm, ?_, ?_, ?_, ?_, by omega⟩
            · simp [mkBenchmarkResult, benchmarkResultFields, List.lookup]
            · simp [mkBenchmarkResult, benchmarkResultFields, List.lookup]
            · simp [mkBenchmarkResult, benchmarkResultFields, List.lookup]
            · rw [hts]
              simp [mkBenchmarkResult, benchmarkResultFields, List.lookup]

/-- Witness for C9: the concrete benchmark request of the counterexample,
with its fully computed response. -/
theorem benchmark_model_spec_witness :
    benchmark_model ⟨fun _ => true, fun _ => none⟩
        (some ⟨⟨[("fomm", 0)], some 0, some "fomm", 1⟩, some 0, "fomm"⟩)
        (fun n : Nat => n) [10, 20] (fun i => ⟨i + 1, 10⟩) "fomm" "cpu" 2 ⟨[], [], []⟩ =
      (Except.ok ([("avg_time_seconds", JVal.num ⟨30, 200⟩), ("fps", JVal.num ⟨400, 30⟩),
          ("model_name", JVal.str "fomm"), ("device", JVal.str "cpu")], ⟨1, 1, 2⟩),
       ⟨[], [], []⟩) ∧
    ([("avg_time_seconds", JVal.num ⟨30, 200⟩), ("fps", JVal.num ⟨400, 30⟩),
      ("model_name", JVal.str "fomm"), ("device", JVal.str "cpu")] :
        List (String × JVal)).lookup "min_time_seconds" = none :=
  ⟨rfl,
   (benchmark_model_spec ⟨fun _ => true, fun _ => none⟩
      (some ⟨⟨[("fomm", 0)], some 0, some "fomm", 1⟩, some 0, "fomm"⟩)
      (fun n : Nat => n) [10, 20] (fun i => ⟨i + 1, 10⟩) "fomm" "cpu" 2 ⟨[], [], []⟩
      [("avg_time_seconds", JVal.num ⟨30, 200⟩), ("fps", JVal.num ⟨400, 30⟩),
       ("model_name", JVal.str "fomm"), ("device", JVal.str "cpu")] ⟨1, 1, 2⟩
      ⟨[], [], []⟩ rfl).2.2.2.1⟩

end Motion3D
